import Mathlib

/-!
Verification development for the channel-accounts relayer plugin.

Each section below is a shallow embedding of one component of the plugin
source (pool.ts, fee-tracking.ts, sequence.ts, simulation.ts, handler.ts,
tx.ts, fee.ts, config.ts), followed by theorems about the embedded
definitions.  JavaScript numbers that stay inside the exact-integer range
are modelled as `Int`/`Nat`; the capacity ratio (a small decimal) is
modelled as `ℚ`; 32-bit wraparound in the string hash is made explicit
with `toInt32`; fallible operations return `Except`; the KV store is a
function from keys to optional values.
-/

namespace Channels

/-! ### Pool partitioning (pool.ts)

`simpleHash` embeds the JS hash loop
`hash = (hash << 5) - hash + charCodeAt(i); hash = hash & hash`.
Both `<< 5` and `& hash` coerce to a signed 32-bit integer, made explicit
by `toInt32`.  Membership ids are ASCII (normalized `[a-z0-9:_-]`), so
`charCodeAt` agrees with `Char.toNat`. -/

/-- Signed 32-bit wraparound of an integer, as produced by JS `| 0` style
coercions (`<<`, `&`). -/
def toInt32 (n : Int) : Int :=
  (n + 2 ^ 31) % 2 ^ 32 - 2 ^ 31

/-- One iteration of the `simpleHash` loop in pool.ts. -/
def simpleHashStep (hash : Int) (c : Char) : Int :=
  toInt32 (toInt32 (hash * 32) - hash + (c.toNat : Int))

/-- `simpleHash` from pool.ts: fold the step over the characters, then
`Math.abs(hash) % 100`. -/
def simpleHash (s : String) : Nat :=
  ((s.data.foldl simpleHashStep 0).natAbs) % 100

/-- The comparator used by `filterChannelsForLimitedContract`:
`simpleHash(a) - simpleHash(b) || a.localeCompare(b)`, i.e. ascending hash
with ties broken by id comparison (ids are plain ASCII, so locale
comparison is the lexicographic string order). -/
def hashOrder (a b : String) : Prop :=
  simpleHash a < simpleHash b ∨ (simpleHash a = simpleHash b ∧ a ≤ b)

instance : DecidableRel hashOrder := fun a b => by
  unfold hashOrder; infer_instance

instance : IsTotal String hashOrder := by
  constructor
  intro a b
  rcases lt_trichotomy (simpleHash a) (simpleHash b) with h | h | h
  · exact Or.inl (Or.inl h)
  · rcases le_total a b with hab | hba
    · exact Or.inl (Or.inr ⟨h, hab⟩)
    · exact Or.inr (Or.inr ⟨h.symm, hba⟩)
  · exact Or.inr (Or.inl h)

instance : IsTrans String hashOrder := by
  constructor
  intro a b c hab hbc
  rcases hab with h1 | ⟨h1, h1le⟩ <;> rcases hbc with h2 | ⟨h2, h2le⟩
  · exact Or.inl (h1.trans h2)
  · exact Or.inl (h2 ▸ h1)
  · exact Or.inl (h1 ▸ h2)
  · exact Or.inr ⟨h1.trans h2, le_trans h1le h2le⟩

/-- The sorted copy produced by
`ids.slice().sort((a, b) => simpleHash(a) - simpleHash(b) || a.localeCompare(b))`.
Distinct ids give a strict-weak comparator, so every comparison sort
returns this unique sorted order; insertion sort is the embedding. -/
def sortChannels (ids : List String) : List String :=
  List.insertionSort hashOrder ids

/-- `filterChannelsForLimitedContract` from pool.ts:
`k = Math.max(1, Math.floor(ratio * ids.length))`, then the first `k`
entries of the sorted copy. -/
def filterChannelsForLimitedContract (ids : List String) (rat : ℚ) : List String :=
  let k : Int := max 1 ⌊rat * (ids.length : ℚ)⌋
  (sortChannels ids).take k.toNat

/-- Acquire options from pool.ts (`capacityRatio` in source). -/
structure AcquireOptions where
  contractId : Option String
  limitedContracts : List String
  capacityRat : ℚ

/-- The candidate list computed at the top of `tryLockAnyRelayer`:
`if (options.contractId && options.limitedContracts.has(options.contractId))
   ids = filterChannelsForLimitedContract(ids, options.capacityRatio)`.
The empty string is falsy in JS, mirrored by the `cid ≠ ""` conjunct. -/
def candidateChannels (o : AcquireOptions) (ids : List String) : List String :=
  match o.contractId with
  | some cid =>
      if cid ≠ "" ∧ cid ∈ o.limitedContracts then
        filterChannelsForLimitedContract ids o.capacityRat
      else ids
  | none => ids

/-- Claim C1: for an acquire whose contractId is limited, the candidate
channel set is exactly the first `max(1, ⌊capacityRatio·N⌋)` members of
the membership list sorted by `simpleHash` ascending with ties broken by
id comparison; and it is a function of the membership list and ratio
only — two limited acquires with the same membership and ratio (possibly
different contract ids or callers) see the same candidates.  The shuffle
applied afterwards permutes but never changes this set. -/
theorem limited_contract_candidates_deterministic
    (o o' : AcquireOptions) (ids : List String) (cid cid' : String)
    (h1 : o.contractId = some cid) (h2 : cid ≠ "") (h3 : cid ∈ o.limitedContracts)
    (h1' : o'.contractId = some cid') (h2' : cid' ≠ "") (h3' : cid' ∈ o'.limitedContracts)
    (hr : o.capacityRat = o'.capacityRat)
    (hne : ids ≠ []) :
    candidateChannels o ids
        = (sortChannels ids).take (max 1 ⌊o.capacityRat * (ids.length : ℚ)⌋).toNat
      ∧ (sortChannels ids).Perm ids
      ∧ (sortChannels ids).Sorted hashOrder
      ∧ candidateChannels o ids = candidateChannels o' ids := by
  refine ⟨?_, ?_, ?_, ?_⟩
  · simp only [candidateChannels, h1]
    rw [if_pos ⟨h2, h3⟩]
    rfl
  · exact List.perm_insertionSort hashOrder ids
  · exact List.sorted_insertionSort hashOrder ids
  · simp only [candidateChannels, h1, h1']
    rw [if_pos ⟨h2, h3⟩, if_pos ⟨h2', h3'⟩, hr]

def poolIdsEx : List String := ["p1", "p2", "p3"]

def poolOptA : AcquireOptions :=
  { contractId := some "c1", limitedContracts := ["c1"], capacityRat := 4/5 }

def poolOptB : AcquireOptions :=
  { contractId := some "c2", limitedContracts := ["c2", "c1"], capacityRat := 4/5 }

/-- Witness for C1 at a concrete membership list and ratio. -/
theorem limited_contract_candidates_deterministic_witness :
    poolOptA.contractId = some "c1" ∧ ("c1" : String) ≠ "" ∧ "c1" ∈ poolOptA.limitedContracts
      ∧ poolOptB.contractId = some "c2" ∧ ("c2" : String) ≠ "" ∧ "c2" ∈ poolOptB.limitedContracts
      ∧ poolOptA.capacityRat = poolOptB.capacityRat ∧ poolIdsEx ≠ []
      ∧ (candidateChannels poolOptA poolIdsEx
            = (sortChannels poolIdsEx).take (max 1 ⌊poolOptA.capacityRat * (poolIdsEx.length : ℚ)⌋).toNat
          ∧ (sortChannels poolIdsEx).Perm poolIdsEx
          ∧ (sortChannels poolIdsEx).Sorted hashOrder
          ∧ candidateChannels poolOptA poolIdsEx = candidateChannels poolOptB poolIdsEx) :=
  ⟨rfl, by decide, by decide, rfl, by decide, by decide, rfl, by decide,
    limited_contract_candidates_deterministic poolOptA poolOptB poolIdsEx "c1" "c2"
      rfl (by decide) (by decide) rfl (by decide) (by decide) rfl (by decide)⟩

/-! ### Channel lock release (pool.ts, `ChannelPool.release`)

The lock store maps KV keys to optional entries.  `release` reads the
entry at the lock key, deletes it only when its token equals the caller's
token, and swallows every KV error (`try { ... } catch { }`), which the
flags `getFails`/`delFails` make explicit. -/

/-- A stored lock entry, read back as `{ token?: string }` (the token
field may be missing on foreign data, hence `Option`). -/
structure LockEntryVal where
  token : Option String
  lockedAt : String
deriving DecidableEq

/-- The lock handle returned by acquire. -/
structure PoolLock where
  relayerId : String
  token : String
deriving DecidableEq

/-- Lock store: KV keys to optional lock entries. -/
def LockKV : Type := String → Option LockEntryVal

/-- `lockKey` from pool.ts. -/
def lockKey (network relayerId : String) : String :=
  network ++ ":channel:in-use:" ++ relayerId

/-- `ChannelPool.release`: read the entry at the lock key; if its token
equals the caller's token, delete the key; otherwise leave the store
untouched.  A failing `kv.get` (`getFails`) or `kv.del` (`delFails`) is
caught by the surrounding `try`/`catch` and leaves the store unchanged. -/
def release (kv : LockKV) (getFails delFails : Bool) (network : String)
    (lock : PoolLock) : LockKV :=
  if getFails then kv
  else
    match kv (lockKey network lock.relayerId) with
    | some cur =>
        if cur.token = some lock.token then
          if delFails then kv
          else fun k => if k = lockKey network lock.relayerId then none else kv k
        else kv
    | none => kv

/-- Whether the entry currently stored at `key` carries the caller's
token (`current?.token === lock.token` in source; a missing entry or a
missing token field compares unequal). -/
def storedTokenMatches (kv : LockKV) (key : String) (lock : PoolLock) : Bool :=
  match kv key with
  | some cur => cur.token = some lock.token
  | none => false

/-- Claim C4: `release` deletes the lock key iff the stored entry's token
equals the caller's token; on token mismatch or missing entry the store
is unchanged; and a failing KV read or delete is swallowed, leaving the
store unchanged (release is a total function — it never throws). -/
theorem release_token_guard
    (kv kvMis : LockKV) (g d g₂ d₂ : Bool) (network : String) (lock : PoolLock)
    (cur : LockEntryVal)
    (hget : kv (lockKey network lock.relayerId) = some cur)
    (htok : cur.token = some lock.token)
    (hmis : storedTokenMatches kvMis (lockKey network lock.relayerId) lock = false)
    (herr : g = true ∨ d = true) :
    release kv false false network lock
        = Function.update kv (lockKey network lock.relayerId) none
      ∧ release kvMis g₂ d₂ network lock = kvMis
      ∧ release kv g d network lock = kv := by
  refine ⟨?_, ?_, ?_⟩
  · funext k
    simp only [release, Bool.false_eq_true, if_false, hget, htok, if_pos rfl,
      Function.update]
    by_cases hk : k = lockKey network lock.relayerId
    · simp [hk]
    · simp [hk]
  · unfold storedTokenMatches at hmis
    unfold release
    cases g₂ with
    | true => simp
    | false =>
        simp only [Bool.false_eq_true, if_false]
        cases hkv : kvMis (lockKey network lock.relayerId) with
        | none => rfl
        | some c =>
            rw [hkv] at hmis
            simp only [hkv]
            rw [if_neg (by simpa using hmis)]
  · unfold release
    rcases herr with hg | hd
    · subst hg; simp
    · subst hd
      cases g with
      | true => simp
      | false => simp [hget, htok]

/-- Example lock store for the C4 witness: one lock entry owned by
token `tok`. -/
def lockKVEx : LockKV := fun k =>
  if k = "testnet:channel:in-use:p1" then some ⟨some "tok", "t0"⟩ else none

/-- Example store whose entry carries a different token. -/
def lockKVMisEx : LockKV := fun k =>
  if k = "testnet:channel:in-use:p1" then some ⟨some "other", "t0"⟩ else none

/-- Witness for C4 at a concrete store, lock and failure flags. -/
theorem release_token_guard_witness :
    release lockKVEx false false "testnet" ⟨"p1", "tok"⟩
        = Function.update lockKVEx (lockKey "testnet" "p1") none
      ∧ release lockKVMisEx false false "testnet" ⟨"p1", "tok"⟩ = lockKVMisEx
      ∧ release lockKVEx true false "testnet" ⟨"p1", "tok"⟩ = lockKVEx := by
  have h := release_token_guard lockKVEx lockKVMisEx true false false false
    "testnet" ⟨"p1", "tok"⟩ ⟨some "tok", "t0"⟩
    (by decide) (by decide) (by decide) (Or.inl rfl)
  exact h

/-! ### Fee tracker (fee-tracking.ts)

Per-API-key budget state.  The two KV documents the tracker touches —
the usage entry and the per-key custom limit — form the `TrackerStore`.
`checkBudget` only reads, so it returns the store unchanged alongside
its `Except` outcome. -/

/-- KV usage document `{ consumed, periodStart? }`. -/
structure FeeData where
  consumed : Int
  periodStart : Option Int
deriving DecidableEq

/-- Tracker configuration (`defaultLimit?`, `resetPeriodMs?`). -/
structure TrackerCfg where
  defaultLimit : Option Int
  resetPeriodMs : Option Int
deriving DecidableEq

/-- The two KV records of one API key. -/
structure TrackerStore where
  usage : Option FeeData
  customLimit : Option Int
deriving DecidableEq

/-- `isPeriodExpired`: false when `resetPeriodMs` or `periodStart` is
absent or zero (JS falsiness), else `now - periodStart ≥ resetPeriodMs`. -/
def isPeriodExpired (cfg : TrackerCfg) (now : Int) (periodStart : Option Int) : Bool :=
  match cfg.resetPeriodMs with
  | none => false
  | some rp =>
      if rp = 0 then false
      else
        match periodStart with
        | none => false
        | some ps => if ps = 0 then false else decide (now - ps ≥ rp)

/-- `getFeeState`: `{ consumed: 0 }` when there is no usage document or
the period has expired, else the stored document. -/
def getFeeState (cfg : TrackerCfg) (store : TrackerStore) (now : Int) : FeeData :=
  match store.usage with
  | none => ⟨0, none⟩
  | some d => if isPeriodExpired cfg now d.periodStart then ⟨0, none⟩ else d

/-- `getEffectiveLimit`: `custom ?? default`. -/
def getEffectiveLimit (store : TrackerStore) (cfg : TrackerCfg) : Option Int :=
  match store.customLimit with
  | some c => some c
  | none => cfg.defaultLimit

/-- The `FEE_LIMIT_EXCEEDED` error payload of `checkBudget`. -/
structure FeeLimitErr where
  code : String
  status : Nat
  consumed : Int
  fee : Int
  remaining : Int
  limit : Int
deriving DecidableEq

/-- `FeeTracker.checkBudget(fee)`: no-op when there is no effective
limit; otherwise read the usage state (with period expiry applied) and
throw 429 `FEE_LIMIT_EXCEEDED` when `consumed + fee > limit`.  The store
is returned untouched — the method never writes. -/
def checkBudget (cfg : TrackerCfg) (store : TrackerStore) (now fee : Int) :
    Except FeeLimitErr Unit × TrackerStore :=
  match getEffectiveLimit store cfg with
  | none => (Except.ok (), store)
  | some limit =>
      let st := getFeeState cfg store now
      if st.consumed + fee > limit then
        (Except.error ⟨"FEE_LIMIT_EXCEEDED", 429, st.consumed, fee, limit - st.consumed, limit⟩,
          store)
      else (Except.ok (), store)

/-- Claim C2: `checkBudget(fee)` throws `FEE_LIMIT_EXCEEDED` (429) with
details `{consumed, fee, remaining, limit}` iff an effective limit
(custom per-key if set, else the default) is defined and
`consumed + fee > limit`, where `consumed` is 0 when no usage entry
exists or the reset period has expired; otherwise it succeeds.  Either
way the stored state is unmodified. -/
theorem checkBudget_gate (cfg : TrackerCfg) (store : TrackerStore) (now fee : Int) :
    (checkBudget cfg store now fee).2 = store
      ∧ (checkBudget cfg store now fee).1
          = (match (match store.customLimit with
                    | some c => some c
                    | none => cfg.defaultLimit) with
             | none => Except.ok ()
             | some limit =>
                 let consumed : Int :=
                   match store.usage with
                   | none => 0
                   | some d => if isPeriodExpired cfg now d.periodStart then 0 else d.consumed
                 if consumed + fee > limit then
                   Except.error ⟨"FEE_LIMIT_EXCEEDED", 429, consumed, fee, limit - consumed, limit⟩
                 else Except.ok ()) := by
  have h2 : (checkBudget cfg store now fee).2 = store := by
    unfold checkBudget
    cases getEffectiveLimit store cfg with
    | none => rfl
    | some limit =>
        simp only []
        split <;> rfl
  refine ⟨h2, ?_⟩
  unfold checkBudget getEffectiveLimit getFeeState
  cases store.customLimit with
  | some c =>
      cases store.usage with
      | none => dsimp only; split <;> rfl
      | some d =>
          by_cases he : isPeriodExpired cfg now d.periodStart = true
          · simp only [if_pos he]
            split <;> rfl
          · simp only [if_neg he]
            split <;> rfl
  | none =>
      cases cfg.defaultLimit with
      | none => rfl
      | some c =>
          cases store.usage with
          | none => dsimp only; split <;> rfl
          | some d =>
              by_cases he : isPeriodExpired cfg now d.periodStart = true
              · simp only [if_pos he]
                split <;> rfl
              · simp only [if_neg he]
                split <;> rfl

/-! ### Sequence-number cache (sequence.ts)

Entries `{ sequence: decimal string, storedAt: epoch ms }` live under
`<network>:channel:seq:<address>`.  `getSequence` reads, never writes;
`commitSequence` stores `(BigInt(used) + 1).toString()` with the current
time; `clearSequence` deletes.  The chain fallback is represented by the
`SeqResult.fromChain` outcome — which branch is taken is exactly what the
claim is about. -/

/-- Helper: `Nat.toDigitsCore` never shrinks a non-empty accumulator. -/
theorem toDigitsCore_ne_nil (b : Nat) : ∀ (fuel n : Nat) (acc : List Char),
    acc ≠ [] → Nat.toDigitsCore b fuel n acc ≠ [] := by
  intro fuel
  induction fuel with
  | zero => intro n acc h; simpa [Nat.toDigitsCore] using h
  | succ f ih =>
      intro n acc h
      unfold Nat.toDigitsCore
      by_cases hq : n / b = 0
      · simp [hq]
      · simp only [hq, if_false]
        exact ih (n / b) _ (by simp)

/-- Helper: `Nat.toDigits` always yields at least one digit. -/
theorem nat_toDigits_ne_nil (b n : Nat) : Nat.toDigits b n ≠ [] := by
  unfold Nat.toDigits
  unfold Nat.toDigitsCore
  by_cases hq : n / b = 0
  · simp [hq]
  · simp only [hq, if_false]
    exact toDigitsCore_ne_nil b n (n / b) _ (by simp)

/-- Helper: decimal representations of naturals are non-empty. -/
theorem nat_repr_ne_empty (n : Nat) : Nat.repr n ≠ "" := by
  unfold Nat.repr
  intro h
  have hd : (Nat.toDigits 10 n) = [] := by
    have := congrArg String.data h
    simpa [List.asString] using this
  exact nat_toDigits_ne_nil 10 n hd

/-- Helper: decimal representations of integers are non-empty, so a
committed sequence string is always JS-truthy. -/
theorem int_toString_ne_empty (n : Int) : toString n ≠ "" := by
  show Int.repr n ≠ ""
  cases n with
  | ofNat m => exact nat_repr_ne_empty m
  | negSucc m =>
      unfold Int.repr
      intro h
      have := congrArg String.data h
      simp [String.data_append] at this

/-- Cached sequence entry `{ sequence, storedAt }`; `storedAt` may be
missing on entries written by older code (`cached.storedAt ?? 0`). -/
structure SeqCacheEntry where
  sequence : String
  storedAt : Option Int
deriving DecidableEq

/-- Sequence store: KV keys to optional cache entries. -/
def SeqKV : Type := String → Option SeqCacheEntry

/-- `seqKey` from sequence.ts. -/
def seqKey (network address : String) : String :=
  network ++ ":channel:seq:" ++ address

/-- `SEQ_CACHE_MAX_AGE_MS` from sequence.ts. -/
def SEQ_CACHE_MAX_AGE_MS : Int := 120000

/-- Where `getSequence` got its answer: the fresh cache entry, or the
chain fetch `getAccountSequence`. -/
inductive SeqResult where
  | fromCache (s : String)
  | fromChain
deriving DecidableEq

/-- `getSequence`: if a cache entry exists with a truthy `sequence` and
`now - (storedAt ?? 0) < SEQ_CACHE_MAX_AGE_MS`, return the cached string;
otherwise fall back to the chain fetch.  The store is returned untouched
— the function performs no write. -/
def getSequence (kv : SeqKV) (network address : String) (now : Int) :
    SeqResult × SeqKV :=
  match kv (seqKey network address) with
  | some cached =>
      if cached.sequence ≠ "" then
        if now - (cached.storedAt.getD 0) < SEQ_CACHE_MAX_AGE_MS then
          (SeqResult.fromCache cached.sequence, kv)
        else (SeqResult.fromChain, kv)
      else (SeqResult.fromChain, kv)
  | none => (SeqResult.fromChain, kv)

/-- `commitSequence`: store `{ sequence: (used + 1).toString(), storedAt: now }`
under the sequence key; a failing `kv.set` is logged and swallowed. -/
def commitSequence (kv : SeqKV) (setFails : Bool) (network address : String)
    (used : Int) (now : Int) : SeqKV :=
  if setFails then kv
  else fun k =>
    if k = seqKey network address then some ⟨toString (used + 1), some now⟩
    else kv k

/-- `clearSequence`: delete the sequence key; a failing `kv.del` is
logged and swallowed. -/
def clearSequence (kv : SeqKV) (delFails : Bool) (network address : String) : SeqKV :=
  if delFails then kv
  else fun k => if k = seqKey network address then none else kv k

/-- Claim C3: after `commitSequence(address, used)`, a `getSequence`
performed while the entry is fresh (`now - storedAt < 120000` ms) returns
the decimal string `used + 1` from the cache, without contacting the
chain; after `clearSequence(address)` the same read falls back to the
chain fetch; and `getSequence` never writes to the cache. -/
theorem sequence_cache_lifecycle
    (kv kvAny : SeqKV) (network address : String) (used tCommit tGet tAny : Int)
    (hfresh : tGet - tCommit < 120000) :
    (getSequence (commitSequence kv false network address used tCommit)
        network address tGet).1
      = SeqResult.fromCache (toString (used + 1))
    ∧ (getSequence
          (clearSequence (commitSequence kv false network address used tCommit)
            false network address)
          network address tGet).1
      = SeqResult.fromChain
    ∧ (getSequence kvAny network address tAny).2 = kvAny := by
  refine ⟨?_, ?_, ?_⟩
  · unfold getSequence commitSequence
    simp [int_toString_ne_empty (used + 1), SEQ_CACHE_MAX_AGE_MS, hfresh]
  · unfold getSequence clearSequence commitSequence
    simp
  · unfold getSequence
    cases hkv : kvAny (seqKey network address) with
    | none => rfl
    | some cached =>
        dsimp only
        by_cases hs : cached.sequence ≠ ""
        · rw [if_pos hs]
          split <;> rfl
        · rw [if_neg hs]

def seqKVEx : SeqKV := fun _ => none

/-- Witness for C3 at a concrete store, address and times. -/
theorem sequence_cache_lifecycle_witness :
    ((42 : Int) - 0 < 120000)
    ∧ ((getSequence (commitSequence seqKVEx false "testnet" "GADDR" 500 0)
          "testnet" "GADDR" 42).1
        = SeqResult.fromCache (toString ((500 : Int) + 1))
      ∧ (getSequence
            (clearSequence (commitSequence seqKVEx false "testnet" "GADDR" 500 0)
              false "testnet" "GADDR")
            "testnet" "GADDR" 42).1
        = SeqResult.fromChain
      ∧ (getSequence seqKVEx "testnet" "GADDR" 7).2 = seqKVEx) :=
  ⟨by decide,
    sequence_cache_lifecycle seqKVEx seqKVEx "testnet" "GADDR" 500 0 42 7 (by decide)⟩

/-! ### Simulation classification (simulation.ts) and handler control
flow (handler.ts)

`simulateTransaction` runs one simulation; on a successful RPC response
with no simulation error, lines 193–219 classify the call:
`hasAuth = (results?.[0]?.auth?.length ?? 0) > 0`; the read-write
footprint is decoded from `transactionData` when that field is present
(a failed decode counts as non-empty — "treat as not read-only"); absent
`transactionData` leaves `hasReadWrite = false`.  The handler's
`handleFuncAuthSubmit` then short-circuits read-only calls and otherwise
acquires a pool lock, submits, commits or clears the cached sequence,
and releases the lock in its `finally` block. -/

/-- One entry of `simResult.results`. -/
structure SimEntry where
  auth : List String
  xdr : String
deriving DecidableEq

/-- The `transactionData` field as seen by the decoder: it either decodes
to a Soroban footprint (with its read-write key list) or decoding throws. -/
inductive SimTxData where
  | decoded (readWrite : List String)
  | undecodable
deriving DecidableEq

/-- A successful (error-free) raw simulation response. -/
structure RawSimResponse where
  results : Option (List SimEntry)
  transactionData : Option SimTxData
  latestLedger : Option Nat
deriving DecidableEq

/-- `(results?.[0]?.auth?.length ?? 0) > 0`. -/
def firstResultHasAuth (r : RawSimResponse) : Bool :=
  match r.results with
  | some (e :: _) => e.auth.length > 0
  | _ => false

/-- `hasReadWrite`: false when `transactionData` is absent; when present,
the decoded read-write footprint must be non-empty, and a decode failure
counts as `true` (the "safe fallback" comment in source). -/
def hasReadWriteFootprint (r : RawSimResponse) : Bool :=
  match r.transactionData with
  | none => false
  | some (SimTxData.decoded rw) => rw.length > 0
  | some SimTxData.undecodable => true

/-- `isReadOnly = !hasAuth && !hasReadWrite`. -/
def isReadOnly (r : RawSimResponse) : Bool :=
  !firstResultHasAuth r && !hasReadWriteFootprint r

/-- The `SimulationResult` record returned by `simulateTransaction`. -/
structure SimulationResult where
  isReadOnly : Bool
  returnValue : Option String
  latestLedger : Option Nat
deriving DecidableEq

/-- The classification step of `simulateTransaction` (lines 193–219):
`returnValue = isReadOnly ? results?.[0]?.xdr : undefined`. -/
def simulateClassify (r : RawSimResponse) : SimulationResult :=
  { isReadOnly := isReadOnly r
    returnValue :=
      if isReadOnly r then
        match r.results with
        | some (e :: _) => some e.xdr
        | _ => none
      else none
    latestLedger := r.latestLedger }

/-- The response record of the plugin (`ChannelAccountsResponse`). -/
structure ChannelResponse where
  transactionId : Option String
  status : Option String
  hash : Option String
  returnValue : Option String
  latestLedger : Option Nat
deriving DecidableEq

/-- Externally visible effects of `handleFuncAuthSubmit`, in order:
acquiring the pool lock, calling `submitWithFeeBumpAndWait`, committing
or clearing the cached sequence, releasing the lock.  `extendLock` is the
pool-lock extension the tests and spec describe; it is listed so that its
absence from a trace is expressible. -/
inductive HEvent where
  | acquire
  | submit
  | commitSeq
  | clearSeq
  | releaseLock
  | extendLock
deriving DecidableEq

/-- Outcome of `submitWithFeeBumpAndWait`: a normal return with a status
(`failed` never returns normally — it throws `ONCHAIN_FAILED`), or one of
the thrown errors. -/
inductive SubmitOutcome where
  | result (status : String) (id : String) (hash : Option String)
  | errOnchain
  | errWaitTimeout
  | errOther
deriving DecidableEq

deriving instance DecidableEq for Except

/-- Result of the handler: a response or a thrown error code, plus the
trace of effects. -/
structure HandlerOutput where
  response : Except String ChannelResponse
  events : List HEvent
deriving DecidableEq

/-- `handleFuncAuthSubmit` (handler.ts lines 112–211): simulate once; if
the simulation is read-only, return
`{transactionId: null, status: "readonly", hash: null, returnValue,
latestLedger}` immediately — before the `try` block that acquires the
pool lock.  Otherwise acquire, build, sign and submit; a `confirmed`
result commits the cached sequence, any other result status clears it; a
thrown submit error clears it and re-throws; the `finally` block releases
the pool lock on every one of these paths. -/
def handleFuncAuthSubmit (sim : SimulationResult) (outcome : SubmitOutcome) :
    HandlerOutput :=
  if sim.isReadOnly then
    { response := Except.ok
        { transactionId := none, status := some "readonly", hash := none,
          returnValue := sim.returnValue, latestLedger := sim.latestLedger }
      events := [] }
  else
    match outcome with
    | SubmitOutcome.result status id hash =>
        if status = "confirmed" then
          { response := Except.ok
              { transactionId := some id, status := some status, hash := hash,
                returnValue := none, latestLedger := none }
            events := [HEvent.acquire, HEvent.submit, HEvent.commitSeq, HEvent.releaseLock] }
        else
          { response := Except.ok
              { transactionId := some id, status := some status, hash := hash,
                returnValue := none, latestLedger := none }
            events := [HEvent.acquire, HEvent.submit, HEvent.clearSeq, HEvent.releaseLock] }
    | SubmitOutcome.errOnchain =>
        { response := Except.error "ONCHAIN_FAILED"
          events := [HEvent.acquire, HEvent.submit, HEvent.clearSeq, HEvent.releaseLock] }
    | SubmitOutcome.errWaitTimeout =>
        { response := Except.error "WAIT_TIMEOUT"
          events := [HEvent.acquire, HEvent.submit, HEvent.clearSeq, HEvent.releaseLock] }
    | SubmitOutcome.errOther =>
        { response := Except.error "OTHER"
          events := [HEvent.acquire, HEvent.submit, HEvent.clearSeq, HEvent.releaseLock] }

/-- Claim C5: when the single simulation classifies the call as read-only
(first result has no authorization entries and the read-write footprint
is empty), the handler returns
`{status: "readonly", returnValue = results[0].xdr, latestLedger}` with
an empty effect trace — it neither acquires a channel lock nor calls the
send-transaction submission. -/
theorem readonly_call_short_circuits
    (r : RawSimResponse) (e : SimEntry) (rest : List SimEntry)
    (outcome : SubmitOutcome)
    (hres : r.results = some (e :: rest))
    (hauth : e.auth = [])
    (hrw : hasReadWriteFootprint r = false) :
    handleFuncAuthSubmit (simulateClassify r) outcome =
      { response := Except.ok
          { transactionId := none, status := some "readonly", hash := none,
            returnValue := some e.xdr, latestLedger := r.latestLedger }
        events := [] } := by
  have hro : isReadOnly r = true := by
    simp [isReadOnly, firstResultHasAuth, hres, hauth, hrw]
  unfold handleFuncAuthSubmit simulateClassify
  rw [hro, hres]
  rfl

def simRespEx : RawSimResponse :=
  { results := some [⟨[], "AAAB"⟩]
    transactionData := some (SimTxData.decoded [])
    latestLedger := some 123 }

/-- Witness for C5 at a concrete simulation response. -/
theorem readonly_call_short_circuits_witness :
    simRespEx.results = some (⟨[], "AAAB"⟩ :: [])
    ∧ (⟨[], "AAAB"⟩ : SimEntry).auth = []
    ∧ hasReadWriteFootprint simRespEx = false
    ∧ handleFuncAuthSubmit (simulateClassify simRespEx) SubmitOutcome.errOther =
        { response := Except.ok
            { transactionId := none, status := some "readonly", hash := none,
              returnValue := some "AAAB", latestLedger := some 123 }
          events := [] } :=
  ⟨rfl, rfl, by decide,
    readonly_call_short_circuits simRespEx ⟨[], "AAAB"⟩ [] SubmitOutcome.errOther
      rfl rfl (by decide)⟩

/-- Claim C6 (refuted — the code releases the lock on every outcome):
evaluating the embedded handler at a `WAIT_TIMEOUT` submit outcome and at
a `pending` result shows the trace ends with `releaseLock` and contains
no `extendLock`; handler.ts has no extend-lock call at all, its `finally`
block releases unconditionally, contradicting the claim (and the repo's
own handler tests, which expect `extendLock` and no release on
timeout/pending). -/
theorem waitTimeout_and_pending_release_lock :
    handleFuncAuthSubmit ⟨false, none, none⟩ SubmitOutcome.errWaitTimeout
      = { response := Except.error "WAIT_TIMEOUT"
          events := [HEvent.acquire, HEvent.submit, HEvent.clearSeq, HEvent.releaseLock] }
    ∧ handleFuncAuthSubmit ⟨false, none, none⟩
        (SubmitOutcome.result "pending" "tx-1" (some "hash-1"))
      = { response := Except.ok
            { transactionId := some "tx-1", status := some "pending",
              hash := some "hash-1", returnValue := none, latestLedger := none }
          events := [HEvent.acquire, HEvent.submit, HEvent.clearSeq, HEvent.releaseLock] } :=
  ⟨rfl, by decide⟩

/-- Claim C10: a simulation response with no `transactionData` field is
treated as having an empty read-write footprint, so with zero auth
entries on the first result it is classified read-only and the handler
short-circuits with no effects; a `transactionData` that is present but
fails to decode forces the not-read-only classification. -/
theorem missing_transactionData_is_readonly
    (r rBad : RawSimResponse) (e : SimEntry) (rest : List SimEntry)
    (outcome : SubmitOutcome)
    (hdata : r.transactionData = none)
    (hres : r.results = some (e :: rest))
    (hauth : e.auth = [])
    (hbad : rBad.transactionData = some SimTxData.undecodable) :
    hasReadWriteFootprint r = false
    ∧ handleFuncAuthSubmit (simulateClassify r) outcome =
        { response := Except.ok
            { transactionId := none, status := some "readonly", hash := none,
              returnValue := some e.xdr, latestLedger := r.latestLedger }
          events := [] }
    ∧ isReadOnly rBad = false := by
  have hrw : hasReadWriteFootprint r = false := by
    unfold hasReadWriteFootprint
    rw [hdata]
  refine ⟨hrw, ?_, ?_⟩
  · have hro : isReadOnly r = true := by
      simp [isReadOnly, firstResultHasAuth, hres, hauth, hrw]
    unfold handleFuncAuthSubmit simulateClassify
    rw [hro, hres]
    rfl
  · unfold isReadOnly hasReadWriteFootprint
    rw [hbad]
    simp

def simRespNoData : RawSimResponse :=
  { results := some [⟨[], "AAAC"⟩], transactionData := none, latestLedger := some 9 }

def simRespBadData : RawSimResponse :=
  { results := some [⟨[], "AAAC"⟩]
    transactionData := some SimTxData.undecodable
    latestLedger := some 9 }

/-- Witness for C10 at concrete simulation responses. -/
theorem missing_transactionData_is_readonly_witness :
    simRespNoData.transactionData = none
    ∧ simRespNoData.results = some (⟨[], "AAAC"⟩ :: [])
    ∧ (⟨[], "AAAC"⟩ : SimEntry).auth = []
    ∧ simRespBadData.transactionData = some SimTxData.undecodable
    ∧ (hasReadWriteFootprint simRespNoData = false
      ∧ handleFuncAuthSubmit (simulateClassify simRespNoData) SubmitOutcome.errOther =
          { response := Except.ok
              { transactionId := none, status := some "readonly", hash := none,
                returnValue := some "AAAC", latestLedger := some 9 }
            events := [] }
      ∧ isReadOnly simRespBadData = false) :=
  ⟨rfl, rfl, rfl, rfl,
    missing_transactionData_is_readonly simRespNoData simRespBadData
      ⟨[], "AAAC"⟩ [] SubmitOutcome.errOther rfl rfl rfl rfl⟩

/-! ### Submit-only validation (tx.ts) and fee calculation (fee.ts)

A transaction envelope is modelled by the fields the two functions read:
the envelope kind, the declared fee, the optional Soroban resource fee
(`envelope.v1().tx().ext().sorobanData()?.resourceFee()`, absent when
there is no Soroban data), the optional `timeBounds.maxTime`, and the
operation list.  A host function either is an invoke-contract whose
contract-id extraction succeeds or throws (`Except`), or is some other
host-function kind. -/

/-- Envelope discriminant (`envelope.switch()`). -/
inductive EnvelopeKind where
  | tx
  | feeBump
deriving DecidableEq

/-- A host function: invoke-contract carries the outcome of
`StrKey.encodeContract(...contractId())`, which may throw. -/
inductive HostFn where
  | invokeContract (contractId : Except Unit String)
  | otherHostFn
deriving DecidableEq

/-- One operation: an invoke-host-function op or any other type. -/
inductive Op where
  | invokeHostFunction (func : HostFn)
  | otherOp
deriving DecidableEq

/-- The envelope fields read by tx.ts and fee.ts. -/
structure Tx where
  envKind : EnvelopeKind
  fee : Int
  sorobanResourceFee : Option Int
  timeBoundsMaxTime : Option Int
  operations : List Op
deriving DecidableEq

/-- A structured plugin error (`code`, HTTP status). -/
structure TxErr where
  code : String
  status : Nat
deriving DecidableEq

/-- `SIMULATION.MAX_FUTURE_TIME_BOUND_SECONDS` (constants.ts). -/
def MAX_FUTURE_TIME_BOUND_SECONDS : Int := 120

/-- `validateExistingTransactionForSubmitOnly` from tx.ts: reject
fee-bump envelopes (`INVALID_ENVELOPE_TYPE`); when Soroban data is
present, reject `fee > resourceFee + 201` (`FEE_MISMATCH`); reject
`maxTime - now > 120` (`TIMEBOUNDS_TOO_FAR`); otherwise return the
transaction unchanged.  (The source has no expired-time-bounds check.) -/
def validateExistingTransactionForSubmitOnly (tx : Tx) (now : Int) :
    Except TxErr Tx :=
  if tx.envKind ≠ EnvelopeKind.tx then
    Except.error ⟨"INVALID_ENVELOPE_TYPE", 400⟩
  else
    let feeCheck : Except TxErr Unit :=
      match tx.sorobanResourceFee with
      | some rf =>
          if tx.fee > rf + 201 then Except.error ⟨"FEE_MISMATCH", 400⟩
          else Except.ok ()
      | none => Except.ok ()
    match feeCheck with
    | Except.error e => Except.error e
    | Except.ok () =>
        match tx.timeBoundsMaxTime with
        | some m =>
            if m - now > MAX_FUTURE_TIME_BOUND_SECONDS then
              Except.error ⟨"TIMEBOUNDS_TOO_FAR", 400⟩
            else Except.ok tx
        | none => Except.ok tx

/-- A regular envelope whose `maxTime` (940) is 60 seconds in the past at
`now = 1000`: expired, yet inside every check tx.ts performs. -/
def expiredTxEx : Tx :=
  { envKind := EnvelopeKind.tx, fee := 100, sorobanResourceFee := none,
    timeBoundsMaxTime := some 940, operations := [] }

/-- Claim C7 (refuted — the code accepts expired transactions): the
validator returns the expired transaction of `expiredTxEx` unchanged at
`now = 1000`, although its `maxTime` lies 60 seconds in the past.  tx.ts
only rejects fee-bump envelopes, `fee > resourceFee + 201`, and
`maxTime - now > 120`; it has no not-expired check, contradicting the
claim (and the changelog entry "reject expired transactions" and the tx
test "throws on expired timebounds"). -/
theorem validate_accepts_expired_transaction :
    validateExistingTransactionForSubmitOnly expiredTxEx 1000
        = Except.ok expiredTxEx
      ∧ expiredTxEx.timeBoundsMaxTime = some 940 ∧ (940 : Int) < 1000 := by
  refine ⟨by decide, rfl, by decide⟩

/-! Fee calculation (fee.ts, `calculateMaxFee`). -/

/-- Inclusion fee configuration. -/
structure InclusionFees where
  inclusionFeeDefault : Int
  inclusionFeeLimited : Int
deriving DecidableEq

/-- `FEE.NON_SOROBAN_FEE` (constants.ts). -/
def NON_SOROBAN_FEE : Int := 100000

/-- `getContractIdFromFunc`: `undefined` unless the host function is an
invoke-contract whose id extraction succeeds; any exception is caught and
yields `undefined`. -/
def getContractIdFromFunc : HostFn → Option String
  | HostFn.invokeContract (Except.ok c) => some c
  | HostFn.invokeContract (Except.error _) => none
  | HostFn.otherHostFn => none

/-- `getContractIdFromTransaction`: `undefined` unless the transaction
has exactly one operation of type invoke-host-function; then delegate to
`getContractIdFromFunc` (exceptions caught). -/
def getContractIdFromTransaction (tx : Tx) : Option String :=
  match tx.operations with
  | [Op.invokeHostFunction f] => getContractIdFromFunc f
  | _ => none

/-- `getInclusionFee`: the limited tier when a (truthy) contract id is in
the limited set, else the default tier. -/
def getInclusionFee (contractId : Option String) (limitedContracts : List String)
    (fees : InclusionFees) : Int :=
  match contractId with
  | some c =>
      if c ≠ "" ∧ c ∈ limitedContracts then fees.inclusionFeeLimited
      else fees.inclusionFeeDefault
  | none => fees.inclusionFeeDefault

/-- The resource fee read by `calculateMaxFee`: the Soroban resource fee
of a regular envelope, `0` when the envelope is not a regular transaction
or carries no Soroban data. -/
def envelopeResourceFee (tx : Tx) : Int :=
  match tx.envKind, tx.sorobanResourceFee with
  | EnvelopeKind.tx, some rf => rf
  | _, _ => 0

/-- `calculateMaxFee` from fee.ts:
`fee = resourceFee > 0 ? resourceFee + inclusionFee : NON_SOROBAN_FEE + inclusionFee`. -/
def calculateMaxFee (tx : Tx) (limitedContracts : List String)
    (fees : InclusionFees) : Int :=
  let resourceFee := envelopeResourceFee tx
  let inclusionFee := getInclusionFee (getContractIdFromTransaction tx) limitedContracts fees
  if resourceFee > 0 then resourceFee + inclusionFee
  else NON_SOROBAN_FEE + inclusionFee

/-- Claim C8: `calculateMaxFee` equals
`(resourceFee > 0 ? resourceFee : 100000) + inclusionFee` with the
inclusion fee chosen by limited-contract membership of the extracted
contract id; and an exception during contract-id extraction yields no
contract id, hence the default inclusion fee. -/
theorem calculateMaxFee_formula
    (tx txE : Tx) (limitedContracts : List String) (fees : InclusionFees)
    (hexn : txE.operations
        = [Op.invokeHostFunction (HostFn.invokeContract (Except.error ()))]) :
    calculateMaxFee tx limitedContracts fees
        = (if envelopeResourceFee tx > 0 then envelopeResourceFee tx else 100000)
          + getInclusionFee (getContractIdFromTransaction tx) limitedContracts fees
      ∧ getContractIdFromTransaction txE = none
      ∧ calculateMaxFee txE limitedContracts fees
          = (if envelopeResourceFee txE > 0 then envelopeResourceFee txE else 100000)
            + fees.inclusionFeeDefault := by
  have hnone : getContractIdFromTransaction txE = none := by
    unfold getContractIdFromTransaction
    rw [hexn]
    rfl
  have hsplit : ∀ t : Tx, calculateMaxFee t limitedContracts fees
      = (if envelopeResourceFee t > 0 then envelopeResourceFee t else 100000)
        + getInclusionFee (getContractIdFromTransaction t) limitedContracts fees := by
    intro t
    unfold calculateMaxFee NON_SOROBAN_FEE
    by_cases h : envelopeResourceFee t > 0
    · rw [if_pos h, if_pos h]
    · rw [if_neg h, if_neg h]
  refine ⟨hsplit tx, hnone, ?_⟩
  rw [hsplit txE, hnone]
  rfl

def feeTxEx : Tx :=
  { envKind := EnvelopeKind.tx, fee := 100, sorobanResourceFee := some 5000,
    timeBoundsMaxTime := none,
    operations := [Op.invokeHostFunction (HostFn.invokeContract (Except.ok "CLIM"))] }

def feeTxErrEx : Tx :=
  { envKind := EnvelopeKind.tx, fee := 100, sorobanResourceFee := none,
    timeBoundsMaxTime := none,
    operations := [Op.invokeHostFunction (HostFn.invokeContract (Except.error ()))] }

/-- Witness for C8 at concrete transactions (one limited-contract Soroban
call, one whose contract-id extraction throws). -/
theorem calculateMaxFee_formula_witness :
    feeTxErrEx.operations
        = [Op.invokeHostFunction (HostFn.invokeContract (Except.error ()))]
    ∧ (calculateMaxFee feeTxEx ["CLIM"] ⟨203, 201⟩
          = (if envelopeResourceFee feeTxEx > 0 then envelopeResourceFee feeTxEx else 100000)
            + getInclusionFee (getContractIdFromTransaction feeTxEx) ["CLIM"] ⟨203, 201⟩
      ∧ getContractIdFromTransaction feeTxErrEx = none
      ∧ calculateMaxFee feeTxErrEx ["CLIM"] ⟨203, 201⟩
          = (if envelopeResourceFee feeTxErrEx > 0 then envelopeResourceFee feeTxErrEx else 100000)
            + (⟨203, 201⟩ : InclusionFees).inclusionFeeDefault) :=
  ⟨rfl, calculateMaxFee_formula feeTxEx feeTxErrEx ["CLIM"] ⟨203, 201⟩ rfl⟩

/-! ### Lock-TTL configuration (config.ts, `parseLockTtl`)

The environment value of `LOCK_TTL_SECONDS` after `Number(raw)`:
unset (or empty, falsy), a non-finite parse (NaN/±Infinity), or a finite
number.  `CONFIG.MIN_LOCK_TTL_SECONDS = 3`,
`CONFIG.MAX_LOCK_TTL_SECONDS = 30`, `CONFIG.DEFAULT_LOCK_TTL_SECONDS = 30`
(constants.ts). -/

/-- The parsed state of the `LOCK_TTL_SECONDS` environment variable. -/
inductive EnvNum where
  | unset
  | invalid
  | num (q : ℚ)
deriving DecidableEq

/-- `parseLockTtl` from config.ts: default 30 when unset; default 30 when
the value is not a finite number or lies outside `[3, 30]`; otherwise
`Math.floor(n)`. -/
def parseLockTtl (v : EnvNum) : Int :=
  match v with
  | EnvNum.unset => 30
  | EnvNum.invalid => 30
  | EnvNum.num q => if q < 3 ∨ q > 30 then 30 else ⌊q⌋

/-- Modelled from the claim wording "`LOCK_TTL_SECONDS` clamped to the
range `[3,30]`": out-of-range finite values map to the nearest bound. -/
def claimedClampedLockTtl (v : EnvNum) : Int :=
  match v with
  | EnvNum.unset => 30
  | EnvNum.invalid => 30
  | EnvNum.num q => min 30 (max 3 ⌊q⌋)

/-- Claim C9 counterexample: for `LOCK_TTL_SECONDS = "2"` clamping to
`[3,30]` would give 3, but `parseLockTtl` falls back to the default 30 —
the TTL is not the clamped value. -/
theorem parseLockTtl_is_not_clamping :
    parseLockTtl (EnvNum.num 2) = 30
      ∧ claimedClampedLockTtl (EnvNum.num 2) = 3
      ∧ parseLockTtl (EnvNum.num 2) ≠ claimedClampedLockTtl (EnvNum.num 2) := by
  refine ⟨by decide, by decide, by decide⟩

/-- Claim C9 as amended: the TTL is 30 when the variable is unset or
invalid; a finite value inside `[3,30]` yields its floor; a finite value
outside `[3,30]` falls back to the default 30 (not to the nearer bound);
and for every environment value the resulting TTL lies in `[3,30]`. -/
theorem parseLockTtl_range_and_fallback
    (v w u : EnvNum) (q r : ℚ)
    (hv : v = EnvNum.num q) (h3 : 3 ≤ q) (h30 : q ≤ 30)
    (hw : w = EnvNum.num r) (hout : r < 3 ∨ r > 30) :
    parseLockTtl v = ⌊q⌋
      ∧ parseLockTtl w = 30
      ∧ parseLockTtl EnvNum.unset = 30
      ∧ parseLockTtl EnvNum.invalid = 30
      ∧ 3 ≤ parseLockTtl u ∧ parseLockTtl u ≤ 30 := by
  subst hv hw
  have hq : ¬(q < 3 ∨ q > 30) := by
    push_neg
    exact ⟨h3, h30⟩
  refine ⟨?_, ?_, rfl, rfl, ?_, ?_⟩
  · simp only [parseLockTtl]
    rw [if_neg hq]
  · simp only [parseLockTtl]
    rw [if_pos hout]
  · cases u with
    | unset => decide
    | invalid => decide
    | num s =>
        simp only [parseLockTtl]
        by_cases hs : s < 3 ∨ s > 30
        · rw [if_pos hs]; decide
        · rw [if_neg hs]
          push_neg at hs
          exact Int.le_floor.mpr (by exact_mod_cast hs.1)
  · cases u with
    | unset => decide
    | invalid => decide
    | num s =>
        simp only [parseLockTtl]
        by_cases hs : s < 3 ∨ s > 30
        · rw [if_pos hs]
        · rw [if_neg hs]
          push_neg at hs
          have hle : (⌊s⌋ : ℚ) ≤ 30 := le_trans (Int.floor_le s) hs.2
          exact_mod_cast hle

/-- Witness for the amended C9 at concrete values 29.5 (in range, floors
to 29) and 2 (out of range, falls back to 30). -/
theorem parseLockTtl_range_and_fallback_witness :
    (EnvNum.num (59/2) : EnvNum) = EnvNum.num (59/2)
    ∧ (3 : ℚ) ≤ 59/2 ∧ (59/2 : ℚ) ≤ 30
    ∧ (EnvNum.num 2 : EnvNum) = EnvNum.num 2
    ∧ ((2 : ℚ) < 3 ∨ (2 : ℚ) > 30)
    ∧ (parseLockTtl (EnvNum.num (59/2)) = ⌊(59/2 : ℚ)⌋
      ∧ parseLockTtl (EnvNum.num 2) = 30
      ∧ parseLockTtl EnvNum.unset = 30
      ∧ parseLockTtl EnvNum.invalid = 30
      ∧ 3 ≤ parseLockTtl (EnvNum.num 100) ∧ parseLockTtl (EnvNum.num 100) ≤ 30) :=
  ⟨rfl, by norm_num, by norm_num, rfl, Or.inl (by norm_num),
    parseLockTtl_range_and_fallback (EnvNum.num (59/2)) (EnvNum.num 2) (EnvNum.num 100)
      (59/2) 2 rfl (by norm_num) (by norm_num) rfl (Or.inl (by norm_num))⟩

end Channels
